import Mathlib

/-
Verification of the Comparable-Set Refinement Engine in src/backend/app.py.

The numeric helpers (calculate_filter_bounds, find_closest_boundary_option),
the attribute parsers (parse_area, parse_year_built, parse_bed_bath,
parse_land_title), the iterative filtering loop of perform_cma_analysis and
its benchmark aggregation are embedded as executable Lean definitions over
exact rationals (Python floats are modelled as ℚ) and lists of characters
(Python str).  A Python call that raises is modelled by an Option-valued
function returning none.
-/

/-! ## Bound Calculator: calculate_filter_bounds (app.py lines 36-52) -/

/-- Embedding of `calculate_filter_bounds(subject_value, tolerance_percent,
is_integer)`.  The Python function returns `(None, None)` when the subject
value is absent (`None`/empty) or `≤ 0`; otherwise it computes
`val * (1 ∓ tolerance/100)` and, in integer mode, applies `math.floor` to the
lower and `math.ceil` to the upper bound.  An absent value is modelled as
`none`; the `(None, None)` result is modelled as `none`. -/
def calculate_filter_bounds (subject_value : Option ℚ) (tolerance_percent : ℚ)
    (is_integer : Bool) : Option (ℚ × ℚ) :=
  match subject_value with
  | none => none
  | some val =>
    if val ≤ 0 then none
    else
      let lower_bound := val * (1 - tolerance_percent / 100)
      let upper_bound := val * (1 + tolerance_percent / 100)
      if is_integer then some ((⌊lower_bound⌋ : ℚ), (⌈upper_bound⌉ : ℚ))
      else some (lower_bound, upper_bound)

/-! ## Boundary Snapper: find_closest_boundary_option (app.py lines 55-89) -/

/-- Embedding of `find_closest_boundary_option(bound_value, boundary_options,
is_upper_bound)`.  Empty list: `None`.  Upper direction: first option `≥`
the bound scanning upwards, else the last option.  Lower direction: first
option `≤` the bound scanning downwards, else the sentinel `-1`. -/
def find_closest_boundary_option (bound_value : ℚ) (boundary_options : List ℚ)
    (is_upper_bound : Bool) : Option ℚ :=
  match boundary_options with
  | [] => none
  | a :: t =>
    if is_upper_bound then
      match (a :: t).find? (fun o => decide (bound_value ≤ o)) with
      | some o => some o
      | none => (a :: t).getLast?
    else
      match (a :: t).reverse.find? (fun o => decide (o ≤ bound_value)) with
      | some o => some o
      | none => some (-1)

/-- The floor-area boundary options hard-coded in perform_cma_analysis
(app.py lines 719-721). -/
def floor_area_options : List ℚ :=
  [50, 75, 100, 125, 150, 175, 200, 250, 300, 400, 500]

/-! ## Attribute Parser (app.py lines 92-146) -/

/-- Characters matched by the regex class `[\d.,]` used by parse_area and
parse_land_title: ASCII digits, the dot and the comma. -/
def isNumTokChar (c : Char) : Bool :=
  c.isDigit || c == '.' || c == ','

/-- ASCII whitespace recognized by Python's regex class `\s` and by
`str.strip()`. -/
def isPySpace (c : Char) : Bool :=
  c == ' ' || c == '\t' || c == '\n' || c == '\r' || c == '\x0b' || c == '\x0c'

/-- Numeric value of a list of ASCII digits, most significant first. -/
def digitsToNat (cs : List Char) : Nat :=
  cs.foldl (fun a c => a * 10 + (c.toNat - 48)) 0

/-- The leftmost maximal run of ASCII digits in the text, as matched by
`re.search(r"(\d+)", text)`. -/
def firstDigitRun : List Char → Option (List Char)
  | [] => none
  | c :: rest =>
    if c.isDigit then some (c :: rest.takeWhile Char.isDigit)
    else firstDigitRun rest

/-- Embedding of `parse_year_built` (app.py lines 92-98): first run of
digits as an integer, `-1` when the text is empty or has no digits. -/
def parse_year_built (year_text : String) : Int :=
  match firstDigitRun year_text.data with
  | some ds => (digitsToNat ds : Int)
  | none => -1

/-- Embedding of `parse_bed_bath` (app.py lines 101-107): first run of
digits as an integer, `-1` when the text is empty or has no digits. -/
def parse_bed_bath (text : String) : Int :=
  match firstDigitRun text.data with
  | some ds => (digitsToNat ds : Int)
  | none => -1

/-- The leftmost maximal run of `[\d.,]` characters in the text, as matched
by `re.search(r"[\d.,]+", text)`. -/
def firstNumTok : List Char → Option (List Char)
  | [] => none
  | c :: rest =>
    if isNumTokChar c then some (c :: rest.takeWhile isNumTokChar)
    else firstNumTok rest

/-- Python `float()` restricted to the strings that can reach it inside
parse_area (digits and dots, commas having been removed): accepted iff there
is at most one dot and at least one digit; `none` models the ValueError
raised otherwise (e.g. on ".", "" or "1.2.3"). -/
def pyFloatTok (cs : List Char) : Option ℚ :=
  let ip := cs.takeWhile Char.isDigit
  let rest := cs.drop ip.length
  match rest with
  | [] => if ip.isEmpty then none else some (digitsToNat ip : ℚ)
  | c :: fp =>
    if c == '.' && fp.all Char.isDigit && (!ip.isEmpty || !fp.isEmpty) then
      some ((digitsToNat ip : ℚ) + (digitsToNat fp : ℚ) / ((10 : ℚ) ^ fp.length))
    else none

/-- Python's builtin `round` to an integer on exact rationals: round half to
even (banker's rounding). -/
def pyRound (q : ℚ) : Int :=
  let f := ⌊q⌋
  let d := 2 * (q - (f : ℚ))
  if d < 1 then f
  else if 1 < d then f + 1
  else if f % 2 = 0 then f else f + 1

/-- Python's substring containment `pat in s`. -/
def containsSub (pat : List Char) : List Char → Bool
  | [] => pat.isEmpty
  | c :: rest => pat.isPrefixOf (c :: rest) || containsSub pat rest

/-- Embedding of `parse_area` (app.py lines 110-131).  `none` models the
uncaught ValueError from `float(match.group(0).replace(",", ""))`;
`some (-1)` is the unknown sentinel; otherwise the area in m² after the
hectare/m² unit multiplier and Python rounding. -/
def parse_area (text : String) : Option Int :=
  let cs := text.data
  if cs.isEmpty then some (-1)
  else
    match firstNumTok cs with
    | none => some (-1)
    | some tok =>
      match pyFloatTok (tok.filter (fun c => c != ',')) with
      | none => none
      | some value =>
        let text_lower := cs.map Char.toLower
        if containsSub ['h', 'a'] text_lower then
          some (pyRound (value * 10000))
        else if containsSub ['m', '2'] text_lower ||
            containsSub ['m', '²'] text_lower then
          some (pyRound value)
        else some (pyRound value)

/-- Right half of `str.strip()`: remove trailing whitespace. -/
def stripRight (cs : List Char) : List Char :=
  (cs.reverse.dropWhile isPySpace).reverse

/-- `str.strip()`: remove leading and trailing whitespace. -/
def pyStrip (cs : List Char) : List Char :=
  (stripRight cs).dropWhile isPySpace

/-- Whether the regex fragment `\s*[\d.,]+` matches starting at the head of
the text: some (possibly empty) run of whitespace directly followed by a
`[\d.,]` character. -/
def wsNumMatch : List Char → Bool
  | [] => false
  | c :: rest => isNumTokChar c || (isPySpace c && wsNumMatch rest)

/-- Group 1 of `re.match(r"^(.*?)\s*[\d.,]+", text)`: the lazy `(.*?)`
yields the shortest prefix after which `\s*[\d.,]+` matches; the prefix
cannot contain a newline because `.` does not match one.  `none` models a
failed match. -/
def ltSplit : List Char → Option (List Char)
  | [] => none
  | c :: rest =>
    if wsNumMatch (c :: rest) then some []
    else if c == '\n' then none
    else (ltSplit rest).map (fun g => c :: g)

/-- Embedding of `parse_land_title` (app.py lines 134-146): group 1 of the
match on the stripped text, stripped again; the empty string when the input
is empty or the regex does not match. -/
def parse_land_title (text : String) : String :=
  if text.data.isEmpty then ("")
  else
    match ltSplit (pyStrip text.data) with
    | some g => String.mk (pyStrip g)
    | none => ("")

/-! ## Refinement Loop (perform_cma_analysis, app.py lines 615-1280) -/

/-- Initial tolerance (app.py line 616): 20%. -/
def initial_tolerance_percent : ℚ := 20

/-- Tolerance adjustment step (app.py line 617): 5%. -/
def tolerance_step_percent : ℚ := 5

/-- Lower edge of the target comparable-count band (app.py line 618). -/
def target_min_comps : Int := 5

/-- Upper edge of the target comparable-count band (app.py line 619). -/
def target_max_comps : Int := 15

/-- Iteration cap of the filtering loop (app.py line 620). -/
def max_iterations : Nat := 5

/-- The filter-state variables of perform_cma_analysis that the loop reads
and writes: the running tolerance, the land/floor area windows produced by
calculate_filter_bounds, and the fixed bed/bath/year windows.  The parsers
always return an integer (possibly the `-1` sentinel), so the
`if ... is not None` guards around the ±1/±10 windows are always taken. -/
structure FilterState where
  tolerance : ℚ
  land_area_min : Option ℚ
  land_area_max : Option ℚ
  floor_area_min : Option ℚ
  floor_area_max : Option ℚ
  bedrooms_min : Int
  bedrooms_max : Int
  bathrooms_min : Int
  bathrooms_max : Int
  year_built_min : Int
  year_built_max : Int

/-- Initial filter criteria (app.py lines 616-639): area windows at the 20%
starting tolerance, bed/bath windows at subject ± 1, year window at
subject ± 10. -/
def initFilterState (land floor beds baths year : Int) : FilterState :=
  let lb := calculate_filter_bounds (some (land : ℚ)) initial_tolerance_percent false
  let fb := calculate_filter_bounds (some (floor : ℚ)) initial_tolerance_percent false
  { tolerance := initial_tolerance_percent
    land_area_min := lb.map Prod.fst
    land_area_max := lb.map Prod.snd
    floor_area_min := fb.map Prod.fst
    floor_area_max := fb.map Prod.snd
    bedrooms_min := beds - 1
    bedrooms_max := beds + 1
    bathrooms_min := baths - 1
    bathrooms_max := baths + 1
    year_built_min := year - 10
    year_built_max := year + 10 }

/-- One tolerance adjustment (app.py lines 1233-1265): below the band the
tolerance grows by the step, above the band it shrinks by the step floored
at 5%; in both cases only the land-area and floor-area windows are
recomputed. -/
def adjust_filters (tmin tmax : Int) (land floor : Int) (st : FilterState)
    (result_count : Int) : FilterState :=
  if result_count < tmin then
    let t := st.tolerance + tolerance_step_percent
    let lb := calculate_filter_bounds (some (land : ℚ)) t false
    let fb := calculate_filter_bounds (some (floor : ℚ)) t false
    { st with tolerance := t
              land_area_min := lb.map Prod.fst
              land_area_max := lb.map Prod.snd
              floor_area_min := fb.map Prod.fst
              floor_area_max := fb.map Prod.snd }
  else if tmax < result_count then
    let t := max 5 (st.tolerance - tolerance_step_percent)
    let lb := calculate_filter_bounds (some (land : ℚ)) t false
    let fb := calculate_filter_bounds (some (floor : ℚ)) t false
    { st with tolerance := t
              land_area_min := lb.map Prod.fst
              land_area_max := lb.map Prod.snd
              floor_area_min := fb.map Prod.fst
              floor_area_max := fb.map Prod.snd }
  else st

/-- The comparable count reported by the adapter at a 0-based iteration
index; a count the page does not reveal is left at the default 0
(app.py line 1205). -/
def reportedCount (counts : List Int) (i : Nat) : Int :=
  counts.getD i 0

/-- Run status as recorded in `cma_data["CMA_Status"]`: `Success` models the
"Success: Found {n} comparable" string set inside the loop, `MaxIterReached`
models the "Partial Success: Max iterations reached, final count {n}" string
set after the loop. -/
inductive CMAStatus where
  | NotStarted : CMAStatus
  | Success : Int → CMAStatus
  | MaxIterReached : Int → CMAStatus
deriving DecidableEq

/-- The `while iteration_count < max_iterations` loop of
perform_cma_analysis (app.py lines 664-1270) restricted to its decision
logic: each pass increments the iteration count, reads the reported count,
stops when the count is inside `[tmin, tmax]` and otherwise adjusts the
filters.  Returns (in-band count if converged, iteration count, final
filter state, last reported count). -/
def cma_loop_go (tmin tmax : Int) (land floor : Int) (counts : List Int) :
    Nat → Nat → FilterState → Int → Option Int × Nat × FilterState × Int
  | 0, ic, st, rc => (none, ic, st, rc)
  | fuel + 1, ic, st, _ =>
    let c := reportedCount counts ic
    if tmin ≤ c ∧ c ≤ tmax then (some c, ic + 1, st, c)
    else
      cma_loop_go tmin tmax land floor counts fuel (ic + 1)
        (adjust_filters tmin tmax land floor st c) c

/-- The refinement loop of perform_cma_analysis together with the
post-loop status fixup (app.py lines 1227-1280): the status is set to
`Success` when the loop breaks inside the band, and is then unconditionally
overwritten with `MaxIterReached` whenever the iteration count reached the
cap.  Returns (final status, iteration count, final filter state). -/
def perform_cma_loop (tmin tmax : Int) (land floor beds baths year : Int)
    (counts : List Int) : CMAStatus × Nat × FilterState :=
  let st0 := initFilterState land floor beds baths year
  let r := cma_loop_go tmin tmax land floor counts max_iterations 0 st0 0
  let status0 := match r.1 with
    | some c => CMAStatus.Success c
    | none => CMAStatus.NotStarted
  let status := if max_iterations ≤ r.2.1 then CMAStatus.MaxIterReached r.2.2.2
    else status0
  (status, r.2.1, r.2.2.1)

/-! ## Benchmark Calculator (app.py lines 1342-1403) -/

/-- One extracted comparable as read by the benchmark block (missing fields
are `None`). -/
structure ComparableRecord where
  price_nzd : Option ℚ
  cv_nzd : Option ℚ
  floor_area_sqm : Option ℚ
  land_area_sqm : Option ℚ

/-- The `ratios_sale_cv` list (app.py lines 1356-1363): `price / cv` for
each comparable whose price and cv are truthy and whose cv is positive. -/
def ratios_sale_cv (comps : List ComparableRecord) : List ℚ :=
  comps.filterMap (fun p =>
    match p.price_nzd, p.cv_nzd with
    | some price, some cv =>
      if price ≠ 0 ∧ cv ≠ 0 ∧ 0 < cv then some (price / cv) else none
    | _, _ => none)

/-- Benchmark A average (app.py lines 1370-1371): mean of the sale/CV
ratios, or `none` (the "not available" marker) when no comparable
qualifies. -/
def avg_ratio_sale_cv (comps : List ComparableRecord) : Option ℚ :=
  let r := ratios_sale_cv comps
  if r.isEmpty then none else some (r.sum / (r.length : ℚ))

/-- Benchmark A projected value (app.py lines 1377-1383): average ratio
times the subject capital value, set only when the subject capital value is
positive. -/
def benchmark_1_valuation (comps : List ComparableRecord) (subject_cv : ℚ) :
    Option ℚ :=
  match avg_ratio_sale_cv comps with
  | none => none
  | some avg => if 0 < subject_cv then some (avg * subject_cv) else none

/-- The two comparables of the spec's Benchmark Calculator example. -/
def demo_comps : List ComparableRecord :=
  [{ price_nzd := some 500000, cv_nzd := some 450000,
     floor_area_sqm := none, land_area_sqm := none },
   { price_nzd := some 600000, cv_nzd := some 500000,
     floor_area_sqm := none, land_area_sqm := none }]

/-! ## Name binding in perform_cma_analysis (for the NameError claim) -/

/-- Every name bound at module scope of app.py (imports, module globals and
function definitions) together with every name bound inside
perform_cma_analysis before and inside the benchmark block (parameters,
assigned locals, loop targets and exception aliases), transcribed from
src/backend/app.py.  Python resolves a name by checking the local then the
global scope, so a name outside this list raises NameError at line 1342. -/
def perform_cma_bound_names : List String :=
  ["Flask", "request", "jsonify", "CORS", "asyncio", "logging", "os", "json",
   "re", "load_dotenv", "async_playwright", "random", "datetime", "timezone",
   "timedelta", "math", "RELAB_EMAIL", "RELAB_PASSWORD", "PORT", "app",
   "watchlist_db", "logger", "calculate_filter_bounds",
   "find_closest_boundary_option", "parse_year_built", "parse_bed_bath",
   "parse_area", "parse_land_title", "parse_list_date",
   "select_from_dropdown", "normalize_number", "login_to_relab",
   "search_and_select_property_in_relab", "extract_number",
   "extract_relab_property_data", "perform_cma_analysis",
   "run_playwright_task", "get_relab_data", "save_to_watchlist",
   "get_watchlist", "index", "page", "subject_property_data", "cma_data",
   "cma_button", "slider", "box", "x", "y", "expand_button",
   "subject_land_title_area_raw", "subject_floor_area_raw",
   "subject_bedrooms_raw", "subject_bathrooms_raw", "subject_year_built_raw",
   "subject_land_title", "subject_land_area_sqm", "subject_floor_area_sqm",
   "subject_bedrooms", "subject_bathrooms", "subject_year_built",
   "initial_tolerance_percent", "tolerance_step_percent", "target_min_comps",
   "target_max_comps", "max_iterations", "iteration_count", "land_area_min",
   "land_area_max", "floor_area_min", "floor_area_max", "bedrooms_min",
   "bedrooms_max", "bathrooms_min", "bathrooms_max", "year_built_min",
   "year_built_max", "prev_land_title", "prev_land_area_min",
   "prev_land_area_max", "prev_floor_area_min", "prev_floor_area_max",
   "prev_bedrooms_min", "prev_bedrooms_max", "prev_bathrooms_min",
   "prev_bathrooms_max", "prev_year_built_min", "prev_year_built_max",
   "prev_sale_date", "land_title_dropdown", "floor_area_options",
   "closest_floor_area_min_option", "closest_floor_area_max_option",
   "floor_area_dropdown", "bedroom_options", "closest_bedroom_min_option",
   "closest_bedroom_max_option", "bedroom_dropdown", "bathroom_options",
   "closest_bathroom_min_option", "closest_bathroom_max_option",
   "bathroom_dropdown", "year_built_options",
   "closest_year_built_min_option", "closest_year_built_max_option",
   "year_built_dropdown", "land_area_options",
   "closest_land_area_min_option", "closest_land_area_max_option",
   "land_area_dropdown", "result_count", "results_locator", "results_text",
   "count_match", "properties", "Avg_Sale_CV", "Avg_Land_Value",
   "Avg_Floor_Value", "cards", "count", "card", "comparable_text",
   "patterns", "results", "key", "pat", "match", "raw", "i",
   "ratios_sale_cv", "rates_floor_per_sqm", "rates_land_per_sqm", "prop",
   "price", "cv", "floor_area", "land_area", "avg_ratio_sale_cv",
   "subject_cv_raw", "subject_cv", "benchmark_1_valuation",
   "avg_rate_floor_per_sqm", "benchmark_2_valuation",
   "avg_rate_land_per_sqm", "benchmark_3_valuation", "dropdown_error",
   "fa_error", "e", "debug_e"]

/-- Names the benchmark block reads (app.py lines 1342-1367): the guard
`if not comparable_properties` and the loop
`for prop in comparable_properties`. -/
def benchmark_block_read_names : List String :=
  ["comparable_properties", "ratios_sale_cv", "rates_floor_per_sqm",
   "rates_land_per_sqm", "prop", "price", "cv", "floor_area", "land_area"]

/-! ### Helper lemmas about List.find? on sorted lists -/

theorem find_some_of_exists {α : Type} {p : α → Bool} {l : List α}
    (h : ∃ a ∈ l, p a = true) : ∃ w, l.find? p = some w := by
  rcases h with ⟨a, ha, hp⟩
  exact Option.isSome_iff_exists.mp (List.find?_isSome.mpr ⟨a, ha, hp⟩)

theorem find_first_le {x : ℚ} {l : List ℚ} (hs : l.Sorted (· ≤ ·))
    {w : ℚ} (hw : l.find? (fun o => decide (x ≤ o)) = some w) :
    ∀ m ∈ l, x ≤ m → w ≤ m := by
  induction l with
  | nil => simp [List.find?] at hw
  | cons a t ih =>
    intro m hm hxm
    by_cases hxa : x ≤ a
    · rw [List.find?_cons_of_pos _ (by simpa using hxa)] at hw
      injection hw with hw
      subst hw
      rcases List.mem_cons.mp hm with rfl | hmt
      · exact le_refl _
      · exact List.rel_of_sorted_cons hs _ hmt
    · rw [List.find?_cons_of_neg _ (by simpa using hxa)] at hw
      rcases List.mem_cons.mp hm with rfl | hmt
      · exact absurd hxm hxa
      · exact ih hs.of_cons hw _ hmt hxm

theorem find_first_ge {x : ℚ} {l : List ℚ} (hs : l.Sorted (fun a b => b ≤ a))
    {w : ℚ} (hw : l.find? (fun o => decide (o ≤ x)) = some w) :
    ∀ m ∈ l, m ≤ x → m ≤ w := by
  induction l with
  | nil => simp [List.find?] at hw
  | cons a t ih =>
    intro m hm hmx
    by_cases hax : a ≤ x
    · rw [List.find?_cons_of_pos _ (by simpa using hax)] at hw
      injection hw with hw
      subst hw
      rcases List.mem_cons.mp hm with rfl | hmt
      · exact le_refl _
      · exact List.rel_of_sorted_cons hs _ hmt
    · rw [List.find?_cons_of_neg _ (by simpa using hax)] at hw
      rcases List.mem_cons.mp hm with rfl | hmt
      · exact absurd hmx hax
      · exact ih hs.of_cons hw _ hmt hmx

theorem sorted_reverse_ge {l : List ℚ} (hs : l.Sorted (· ≤ ·)) :
    l.reverse.Sorted (fun a b => b ≤ a) :=
  List.pairwise_reverse.mpr hs

/-- Case analysis on the result of the upper-direction snap for a non-empty
list: it is the first option `≥ x` when one exists, else the last option. -/
theorem fcbo_upper_eq (x : ℚ) (a : ℚ) (t : List ℚ) :
    find_closest_boundary_option x (a :: t) true =
      match (a :: t).find? (fun o => decide (x ≤ o)) with
      | some o => some o
      | none => (a :: t).getLast? := by
  simp [find_closest_boundary_option]

/-- Case analysis on the result of the lower-direction snap for a non-empty
list: it is the first option `≤ x` scanning from the top, else `-1`. -/
theorem fcbo_lower_eq (x : ℚ) (a : ℚ) (t : List ℚ) :
    find_closest_boundary_option x (a :: t) false =
      match (a :: t).reverse.find? (fun o => decide (o ≤ x)) with
      | some o => some o
      | none => some (-1) := by
  simp [find_closest_boundary_option]

/-! ## Claims about the Bound Calculator and the Boundary Snapper -/

/-- C5: for every positive value `v` and nonnegative tolerance `t`,
`calculate_filter_bounds` returns `min = v*(1 - t/100)` and
`max = v*(1 + t/100)`; in integer mode `min` is rounded down and `max` is
rounded up, so in both modes `min ≤ v ≤ max` and the rounded window contains
the unrounded window. -/
theorem calculate_filter_bounds_window (v t : ℚ) (hv : 0 < v) (ht : 0 ≤ t) :
    (calculate_filter_bounds (some v) t false =
        some (v * (1 - t / 100), v * (1 + t / 100)) ∧
      v * (1 - t / 100) ≤ v ∧ v ≤ v * (1 + t / 100)) ∧
    (calculate_filter_bounds (some v) t true =
        some ((⌊v * (1 - t / 100)⌋ : ℚ), (⌈v * (1 + t / 100)⌉ : ℚ)) ∧
      (⌊v * (1 - t / 100)⌋ : ℚ) ≤ v * (1 - t / 100) ∧
      v * (1 + t / 100) ≤ (⌈v * (1 + t / 100)⌉ : ℚ) ∧
      (⌊v * (1 - t / 100)⌋ : ℚ) ≤ v ∧ v ≤ (⌈v * (1 + t / 100)⌉ : ℚ)) := by
  have hnle : ¬ v ≤ 0 := not_le.mpr hv
  have hlo : v * (1 - t / 100) ≤ v := by nlinarith
  have hhi : v ≤ v * (1 + t / 100) := by nlinarith
  have hfl : (⌊v * (1 - t / 100)⌋ : ℚ) ≤ v * (1 - t / 100) := Int.floor_le _
  have hce : v * (1 + t / 100) ≤ (⌈v * (1 + t / 100)⌉ : ℚ) := Int.le_ceil _
  refine ⟨⟨?_, hlo, hhi⟩, ⟨?_, hfl, hce, le_trans hfl hlo, le_trans hhi hce⟩⟩
  · simp [calculate_filter_bounds, hnle]
  · simp [calculate_filter_bounds, hnle]

/-- Witness for C5 at `v = 100`, `t = 20`. -/
theorem calculate_filter_bounds_window_witness :
    calculate_filter_bounds (some 100) 20 false = some (80, 120) := by
  have h := (calculate_filter_bounds_window 100 20 (by norm_num) (by norm_num)).1.1
  rw [h]
  norm_num

/-- C6: on a non-decreasing boundary set, the upper-direction snap returns
the smallest member `≥ x` (else the maximum of the set), the lower-direction
snap returns the largest member `≤ x` (else the sentinel `-1`), and the empty
set yields `none` in either direction. -/
theorem find_closest_boundary_option_spec (l : List ℚ) (x : ℚ)
    (hs : l.Sorted (· ≤ ·)) :
    (find_closest_boundary_option x [] true = none ∧
     find_closest_boundary_option x [] false = none) ∧
    (∀ hne : l ≠ [],
      ((∃ m ∈ l, x ≤ m) →
        ∃ w, find_closest_boundary_option x l true = some w ∧ w ∈ l ∧ x ≤ w ∧
          ∀ m ∈ l, x ≤ m → w ≤ m) ∧
      ((∀ m ∈ l, m < x) →
        find_closest_boundary_option x l true = some (l.getLast hne)) ∧
      ((∃ m ∈ l, m ≤ x) →
        ∃ w, find_closest_boundary_option x l false = some w ∧ w ∈ l ∧ w ≤ x ∧
          ∀ m ∈ l, m ≤ x → m ≤ w) ∧
      ((∀ m ∈ l, x < m) →
        find_closest_boundary_option x l false = some (-1))) := by
  refine ⟨⟨rfl, rfl⟩, ?_⟩
  intro hne
  obtain ⟨a, t, rfl⟩ := List.exists_cons_of_ne_nil hne
  refine ⟨?_, ?_, ?_, ?_⟩
  · intro hex
    have hex' : ∃ m ∈ (a :: t), (fun o => decide (x ≤ o)) m = true := by
      rcases hex with ⟨m, hm, hxm⟩
      exact ⟨m, hm, decide_eq_true hxm⟩
    obtain ⟨w, hw⟩ := find_some_of_exists hex'
    refine ⟨w, ?_, List.mem_of_find?_eq_some hw,
      (by simpa using List.find?_some hw), find_first_le hs hw⟩
    rw [fcbo_upper_eq, hw]
  · intro hall
    have hnone : (a :: t).find? (fun o => decide (x ≤ o)) = none :=
      List.find?_eq_none.mpr fun m hm => by
        simpa using not_le.mpr (hall m hm)
    rw [fcbo_upper_eq, hnone]
    exact List.getLast?_eq_getLast _ hne
  · intro hex
    have hex' : ∃ m ∈ (a :: t).reverse, (fun o => decide (o ≤ x)) m = true := by
      rcases hex with ⟨m, hm, hmx⟩
      exact ⟨m, List.mem_reverse.mpr hm, decide_eq_true hmx⟩
    obtain ⟨w, hw⟩ := find_some_of_exists hex'
    refine ⟨w, ?_, List.mem_reverse.mp (List.mem_of_find?_eq_some hw),
      (by simpa using List.find?_some hw), ?_⟩
    · rw [fcbo_lower_eq, hw]
    · intro m hm hmx
      exact find_first_ge (sorted_reverse_ge hs) hw m (List.mem_reverse.mpr hm) hmx
  · intro hall
    have hnone : (a :: t).reverse.find? (fun o => decide (o ≤ x)) = none :=
      List.find?_eq_none.mpr fun m hm => by
        simpa using not_le.mpr (hall m (List.mem_reverse.mp hm))
    rw [fcbo_lower_eq, hnone]

/-- Witness for C6 on the floor-area boundary set at `x = 80`. -/
theorem find_closest_boundary_option_spec_witness :
    (∃ w, find_closest_boundary_option 80 floor_area_options true = some w ∧
      w ∈ floor_area_options ∧ (80 : ℚ) ≤ w ∧
      ∀ m ∈ floor_area_options, (80 : ℚ) ≤ m → w ≤ m) ∧
    (∃ w, find_closest_boundary_option 80 floor_area_options false = some w ∧
      w ∈ floor_area_options ∧ w ≤ (80 : ℚ) ∧
      ∀ m ∈ floor_area_options, m ≤ (80 : ℚ) → m ≤ w) :=
  ⟨((find_closest_boundary_option_spec floor_area_options 80 (by decide)).2
      (by decide)).1 ⟨100, by decide, by decide⟩,
   ((find_closest_boundary_option_spec floor_area_options 80 (by decide)).2
      (by decide)).2.2.1 ⟨75, by decide, by decide⟩⟩

/-- C2 counterexample: with the floor-area boundary set, a computed upper
bound of 600 exceeds every option, so the snap returns the set's maximum 500,
which is strictly below the computed bound — the window is narrowed. -/
theorem snap_can_narrow_upper_cex :
    find_closest_boundary_option 600 floor_area_options true = some 500 ∧
    ((500 : ℚ) < 600) := by
  constructor
  · decide
  · decide

/-- C2 amended: snapping never narrows the window provided the computed upper
bound does not exceed some member of the boundary set: the snapped upper
bound is then `≥` the computed upper bound, and the snapped lower bound is
either the no-lower-limit sentinel `-1` or `≤` the computed lower bound, so a
subject value inside the unsnapped window stays inside the snapped window. -/
theorem snap_never_narrows_amended (l : List ℚ) (lo up v : ℚ)
    (hup : ∃ m ∈ l, up ≤ m) (hlov : lo ≤ v) (hvup : v ≤ up) :
    (∃ wu, find_closest_boundary_option up l true = some wu ∧
      up ≤ wu ∧ v ≤ wu) ∧
    (∃ wl, find_closest_boundary_option lo l false = some wl ∧
      (wl = -1 ∨ (wl ≤ lo ∧ wl ≤ v))) := by
  obtain ⟨m0, hm0, hm0up⟩ := hup
  have hne : l ≠ [] := fun h => by subst h; cases hm0
  obtain ⟨a, t, rfl⟩ := List.exists_cons_of_ne_nil hne
  constructor
  · have hex' : ∃ m ∈ (a :: t), (fun o => decide (up ≤ o)) m = true :=
      ⟨m0, hm0, decide_eq_true hm0up⟩
    obtain ⟨w, hw⟩ := find_some_of_exists hex'
    have huw : up ≤ w := by simpa using List.find?_some hw
    refine ⟨w, ?_, huw, le_trans hvup huw⟩
    rw [fcbo_upper_eq, hw]
  · rw [fcbo_lower_eq]
    cases hfind : (a :: t).reverse.find? (fun o => decide (o ≤ lo)) with
    | none => exact ⟨-1, rfl, Or.inl rfl⟩
    | some w =>
      have hwlo : w ≤ lo := by simpa using List.find?_some hfind
      exact ⟨w, rfl, Or.inr ⟨hwlo, le_trans hwlo hlov⟩⟩

/-- Witness for the amended C2 on the floor-area boundary set with the
window `[80, 120]` and subject value `100`. -/
theorem snap_never_narrows_amended_witness :
    (∃ wu, find_closest_boundary_option 120 floor_area_options true = some wu ∧
      (120 : ℚ) ≤ wu ∧ (100 : ℚ) ≤ wu) ∧
    (∃ wl, find_closest_boundary_option 80 floor_area_options false = some wl ∧
      (wl = -1 ∨ (wl ≤ (80 : ℚ) ∧ wl ≤ (100 : ℚ)))) :=
  snap_never_narrows_amended floor_area_options 80 120 100
    ⟨500, by decide, by decide⟩ (by decide) (by decide)

/-- C10: for a non-empty options list the upper-direction snap always returns
a member of the list (in particular not `none`, and not the sentinel `-1`
when `-1` is not itself an option); the lower-direction snap returns the
numeric sentinel `-1` when every member exceeds the bound; and the empty list
yields `none` in either direction. -/
theorem find_closest_boundary_option_sentinels (l : List ℚ) (x : ℚ) :
    (find_closest_boundary_option x [] true = none ∧
     find_closest_boundary_option x [] false = none) ∧
    (l ≠ [] →
      (∃ w, find_closest_boundary_option x l true = some w ∧ w ∈ l) ∧
      ((-1 : ℚ) ∉ l →
        ∀ w, find_closest_boundary_option x l true = some w → w ≠ -1) ∧
      ((∀ m ∈ l, x < m) →
        find_closest_boundary_option x l false = some (-1))) := by
  refine ⟨⟨rfl, rfl⟩, ?_⟩
  intro hne
  obtain ⟨a, t, rfl⟩ := List.exists_cons_of_ne_nil hne
  have hmem : ∃ w, find_closest_boundary_option x (a :: t) true = some w ∧
      w ∈ a :: t := by
    rw [fcbo_upper_eq]
    cases hfind : (a :: t).find? (fun o => decide (x ≤ o)) with
    | none =>
      refine ⟨(a :: t).getLast (List.cons_ne_nil a t), ?_, List.getLast_mem _⟩
      exact List.getLast?_eq_getLast _ hne
    | some w => exact ⟨w, rfl, List.mem_of_find?_eq_some hfind⟩
  refine ⟨hmem, ?_, ?_⟩
  · intro hnm w hw
    obtain ⟨w', hw', hmem'⟩ := hmem
    rw [hw] at hw'
    injection hw' with hw'
    subst hw'
    exact fun h => hnm (h ▸ hmem')
  · intro hall
    have hnone : (a :: t).reverse.find? (fun o => decide (o ≤ x)) = none :=
      List.find?_eq_none.mpr fun m hm => by
        simpa using not_le.mpr (hall m (List.mem_reverse.mp hm))
    rw [fcbo_lower_eq, hnone]

/-- Witness for C10 on the floor-area boundary set: an upper bound of 600
yields a member of the set, and a lower bound of 10 (below every option)
yields the sentinel `-1`. -/
theorem find_closest_boundary_option_sentinels_witness :
    (∃ w, find_closest_boundary_option 600 floor_area_options true = some w ∧
      w ∈ floor_area_options) ∧
    find_closest_boundary_option 10 floor_area_options false = some (-1) :=
  ⟨((find_closest_boundary_option_sentinels floor_area_options 600).2
      (by decide)).1,
   ((find_closest_boundary_option_sentinels floor_area_options 10).2
      (by decide)).2.2 (by decide)⟩

/-! ## Claims about the Attribute Parser -/

/-- C1 (code bug): `parse_area` is not total on malformed input.  When the
first `[\d.,]+` token contains no digit — e.g. the inputs "." and ",," —
the conversion `float(match.group(0).replace(",", ""))` raises an uncaught
ValueError (modelled as `none`) instead of returning the `-1` sentinel; the
empty and token-free inputs do degrade to `-1`, as do the year and bed/bath
parsers on digit-free input. -/
theorem parse_area_raises_on_dot_token :
    parse_area (".") = none ∧ parse_area (",,") = none ∧
    parse_area ("") = some (-1) ∧ parse_area ("no digits") = some (-1) ∧
    parse_year_built ("n/a") = -1 ∧ parse_bed_bath ("--") = -1 := by
  decide

/-! ## Claims about the Refinement Loop -/

theorem adjust_filters_frame (tmin tmax land floor : Int) (st : FilterState)
    (c : Int) :
    (adjust_filters tmin tmax land floor st c).bedrooms_min = st.bedrooms_min ∧
    (adjust_filters tmin tmax land floor st c).bedrooms_max = st.bedrooms_max ∧
    (adjust_filters tmin tmax land floor st c).bathrooms_min = st.bathrooms_min ∧
    (adjust_filters tmin tmax land floor st c).bathrooms_max = st.bathrooms_max ∧
    (adjust_filters tmin tmax land floor st c).year_built_min = st.year_built_min ∧
    (adjust_filters tmin tmax land floor st c).year_built_max = st.year_built_max := by
  unfold adjust_filters
  split
  · exact ⟨rfl, rfl, rfl, rfl, rfl, rfl⟩
  · split
    · exact ⟨rfl, rfl, rfl, rfl, rfl, rfl⟩
    · exact ⟨rfl, rfl, rfl, rfl, rfl, rfl⟩

theorem cma_loop_go_frame (tmin tmax land floor : Int) (counts : List Int) :
    ∀ (fuel ic : Nat) (st : FilterState) (rc : Int),
    ((cma_loop_go tmin tmax land floor counts fuel ic st rc).2.2.1).bedrooms_min
        = st.bedrooms_min ∧
    ((cma_loop_go tmin tmax land floor counts fuel ic st rc).2.2.1).bedrooms_max
        = st.bedrooms_max ∧
    ((cma_loop_go tmin tmax land floor counts fuel ic st rc).2.2.1).bathrooms_min
        = st.bathrooms_min ∧
    ((cma_loop_go tmin tmax land floor counts fuel ic st rc).2.2.1).bathrooms_max
        = st.bathrooms_max ∧
    ((cma_loop_go tmin tmax land floor counts fuel ic st rc).2.2.1).year_built_min
        = st.year_built_min ∧
    ((cma_loop_go tmin tmax land floor counts fuel ic st rc).2.2.1).year_built_max
        = st.year_built_max := by
  intro fuel
  induction fuel with
  | zero => intro ic st rc; exact ⟨rfl, rfl, rfl, rfl, rfl, rfl⟩
  | succ n ih =>
    intro ic st rc
    simp only [cma_loop_go]
    split
    · exact ⟨rfl, rfl, rfl, rfl, rfl, rfl⟩
    · have h := ih (ic + 1)
        (adjust_filters tmin tmax land floor st (reportedCount counts ic))
        (reportedCount counts ic)
      have ha := adjust_filters_frame tmin tmax land floor st
        (reportedCount counts ic)
      exact ⟨h.1.trans ha.1, h.2.1.trans ha.2.1, h.2.2.1.trans ha.2.2.1,
        h.2.2.2.1.trans ha.2.2.2.1, h.2.2.2.2.1.trans ha.2.2.2.2.1,
        h.2.2.2.2.2.trans ha.2.2.2.2.2⟩

/-- C9: across a whole run of the refinement loop, only the tolerance and
the land/floor area windows are ever recomputed; the bed/bath (subject ± 1)
and year-built (subject ± 10) windows in the final filter state are exactly
their initialization values for every feedback sequence, and a single
adjustment step leaves those six fields of any filter state unchanged. -/
theorem refinement_loop_frame (tmin tmax land floor beds baths year : Int)
    (counts : List Int) :
    (((perform_cma_loop tmin tmax land floor beds baths year counts).2.2).bedrooms_min
        = beds - 1 ∧
      ((perform_cma_loop tmin tmax land floor beds baths year counts).2.2).bedrooms_max
        = beds + 1 ∧
      ((perform_cma_loop tmin tmax land floor beds baths year counts).2.2).bathrooms_min
        = baths - 1 ∧
      ((perform_cma_loop tmin tmax land floor beds baths year counts).2.2).bathrooms_max
        = baths + 1 ∧
      ((perform_cma_loop tmin tmax land floor beds baths year counts).2.2).year_built_min
        = year - 10 ∧
      ((perform_cma_loop tmin tmax land floor beds baths year counts).2.2).year_built_max
        = year + 10) ∧
    (∀ (st : FilterState) (c : Int),
      (adjust_filters tmin tmax land floor st c).bedrooms_min = st.bedrooms_min ∧
      (adjust_filters tmin tmax land floor st c).bedrooms_max = st.bedrooms_max ∧
      (adjust_filters tmin tmax land floor st c).bathrooms_min = st.bathrooms_min ∧
      (adjust_filters tmin tmax land floor st c).bathrooms_max = st.bathrooms_max ∧
      (adjust_filters tmin tmax land floor st c).year_built_min = st.year_built_min ∧
      (adjust_filters tmin tmax land floor st c).year_built_max = st.year_built_max) := by
  refine ⟨?_, fun st c => adjust_filters_frame tmin tmax land floor st c⟩
  have h := cma_loop_go_frame tmin tmax land floor counts max_iterations 0
    (initFilterState land floor beds baths year) 0
  exact h

/-- C4 (code bug): the loop does end Converged with the right iteration
count when the first in-band count arrives before the cap — the spec
example [2, 2, 8, 8] against band [5, 10] converges at iteration 3 with the
Success status — but when the first in-band count arrives exactly at the
iteration cap (counts [2, 2, 2, 2, 8]) the post-loop check
`iteration_count >= max_iterations` unconditionally overwrites the Success
status set by the break with the max-iterations Partial Success status. -/
theorem converge_at_iteration_cap_bug :
    ((perform_cma_loop 5 10 400 180 3 2 1995 [2, 2, 8, 8]).1 =
        CMAStatus.Success 8 ∧
      (perform_cma_loop 5 10 400 180 3 2 1995 [2, 2, 8, 8]).2.1 = 3) ∧
    ((perform_cma_loop 5 10 400 180 3 2 1995 [2, 2, 2, 2, 8]).1 =
        CMAStatus.MaxIterReached 8 ∧
      (perform_cma_loop 5 10 400 180 3 2 1995 [2, 2, 2, 2, 8]).2.1 = 5) := by
  decide

/-! ## Claims about the Benchmark Calculator -/

/-- C3 (code bug): the benchmark block of perform_cma_analysis reads the
name `comparable_properties` (app.py lines 1342 and 1356), but no scope of
app.py ever binds that name — the extraction loop binds `properties` — so
every run reaching benchmark computation raises NameError there, and the
outer handler replaces the per-benchmark "not available" defaults with a
Failed status. -/
theorem benchmark_reads_unbound_name :
    ("comparable_properties") ∈ benchmark_block_read_names ∧
    ¬ ("comparable_properties") ∈ perform_cma_bound_names := by
  decide

theorem demo_avg_eq : avg_ratio_sale_cv demo_comps = some (52 / 45) := by
  have hr : ratios_sale_cv demo_comps = [500000 / 450000, 600000 / 500000] := by
    simp [ratios_sale_cv, demo_comps]
  rw [avg_ratio_sale_cv, hr]
  norm_num

theorem demo_val_eq :
    benchmark_1_valuation demo_comps 480000 = some (1664000 / 3) := by
  rw [benchmark_1_valuation, demo_avg_eq]
  norm_num

/-- C8 counterexample: for the spec's example comparables and subject
capital value 480000, the code's Benchmark A average ratio is 52/45 =
1.1555…, which is not below 1.0865 and hence not 1.0864…, and the projected
value is 1664000/3 ≈ 554,667, far from ≈ 521,368. -/
theorem benchmark_a_example_cex :
    avg_ratio_sale_cv demo_comps = some (52 / 45) ∧
    ¬ ((52 : ℚ) / 45 < 10865 / 10000) ∧
    benchmark_1_valuation demo_comps 480000 = some (1664000 / 3) ∧
    ¬ ((1664000 : ℚ) / 3 < 530000) :=
  ⟨demo_avg_eq, by norm_num, demo_val_eq, by norm_num⟩

/-- C8 amended: for the spec's example comparables and subject capital
value 480000, Benchmark A's average of price/capitalValue equals 52/45 =
1.1555…, and the projected value equals 1664000/3 = 554,666.67 ≈ 554,667. -/
theorem benchmark_a_example_amended :
    avg_ratio_sale_cv demo_comps = some (52 / 45) ∧
    benchmark_1_valuation demo_comps 480000 = some (1664000 / 3) ∧
    (11555 : ℚ) / 10000 < 52 / 45 ∧ (52 : ℚ) / 45 < 11556 / 10000 ∧
    (554666 : ℚ) < 1664000 / 3 ∧ (1664000 : ℚ) / 3 < 554667 :=
  ⟨demo_avg_eq, demo_val_eq, by norm_num, by norm_num, by norm_num, by norm_num⟩

/-! ## Claims about parse_land_title -/

theorem stripRight_of_all_space {xs : List Char} (h : xs.all isPySpace = true) :
    stripRight xs = [] := by
  unfold stripRight
  have hd : xs.reverse.dropWhile isPySpace = [] :=
    List.dropWhile_eq_nil_iff.mpr fun c hc =>
      List.all_eq_true.mp h c (List.mem_reverse.mp hc)
  rw [hd]
  rfl

theorem stripRight_cons (c : Char) (xs : List Char) :
    stripRight (c :: xs) =
      if stripRight xs = [] then stripRight [c] else c :: stripRight xs := by
  unfold stripRight
  rw [List.reverse_cons, List.dropWhile_append]
  by_cases h : List.dropWhile isPySpace xs.reverse = []
  · rw [if_pos (by rw [h]; rfl), if_pos (by rw [h]; rfl)]
    simp
  · rw [if_neg (by simpa [List.isEmpty_iff] using h),
      if_neg (fun hh => h (by simpa using congrArg List.reverse hh))]
    simp

theorem wsNum_takeWhile_space : ∀ {cs : List Char}, wsNumMatch cs = true →
    (cs.takeWhile (fun c => !isNumTokChar c)).all isPySpace = true := by
  intro cs
  induction cs with
  | nil => intro h; simp [wsNumMatch] at h
  | cons c rest ih =>
    intro h
    simp only [wsNumMatch] at h
    cases hn : isNumTokChar c with
    | true => simp [List.takeWhile_cons, hn]
    | false =>
      rw [hn] at h
      simp only [Bool.false_or, Bool.and_eq_true] at h
      simp [List.takeWhile_cons, hn, h.1, ih h.2]

theorem wsNumMatch_false_of_no_numtok : ∀ {cs : List Char},
    cs.any isNumTokChar = false → wsNumMatch cs = false := by
  intro cs
  induction cs with
  | nil => intro _; rfl
  | cons c rest ih =>
    intro h
    simp only [List.any_cons, Bool.or_eq_false_iff] at h
    simp [wsNumMatch, h.1, ih h.2]

theorem ltSplit_none_of_no_numtok : ∀ {cs : List Char},
    cs.any isNumTokChar = false → ltSplit cs = none := by
  intro cs
  induction cs with
  | nil => intro _; rfl
  | cons c rest ih =>
    intro h
    have hw := wsNumMatch_false_of_no_numtok h
    have h' : rest.any isNumTokChar = false := by
      simp only [List.any_cons, Bool.or_eq_false_iff] at h
      exact h.2
    by_cases hc : (c == '\n') = true
    · simp [ltSplit, hw, hc]
    · simp [ltSplit, hw, hc, ih h']

theorem ltSplit_strip : ∀ {cs : List Char}, ¬ '\n' ∈ cs →
    cs.any isNumTokChar = true →
    ∃ g, ltSplit cs = some g ∧
      stripRight (cs.takeWhile (fun c => !isNumTokChar c)) = stripRight g := by
  intro cs
  induction cs with
  | nil => intro _ h; simp at h
  | cons c rest ih =>
    intro hnl h
    by_cases hw : wsNumMatch (c :: rest) = true
    · refine ⟨[], by simp [ltSplit, hw], ?_⟩
      exact stripRight_of_all_space (wsNum_takeWhile_space hw)
    · have hn : isNumTokChar c = false := by
        cases hcn : isNumTokChar c
        · rfl
        · exact absurd (by simp [wsNumMatch, hcn]) hw
      have hc : (c == '\n') = false := by
        cases hceq : c == '\n'
        · rfl
        · exact absurd (beq_iff_eq.mp hceq ▸ List.mem_cons_self c rest) hnl
      have hrest_nl : ¬ '\n' ∈ rest := fun hm => hnl (List.mem_cons_of_mem c hm)
      have hany : rest.any isNumTokChar = true := by
        simp only [List.any_cons, hn, Bool.false_or] at h
        exact h
      obtain ⟨g', hg', heq⟩ := ih hrest_nl hany
      refine ⟨c :: g', by simp [ltSplit, hw, hc, hg'], ?_⟩
      have ht : (c :: rest).takeWhile (fun x => !isNumTokChar x) =
          c :: rest.takeWhile (fun x => !isNumTokChar x) := by
        simp [List.takeWhile_cons, hn]
      rw [ht, stripRight_cons, heq, ← stripRight_cons]

theorem mem_of_pyStrip {c : Char} {xs : List Char} (h : c ∈ pyStrip xs) :
    c ∈ xs := by
  unfold pyStrip stripRight at h
  have h1 := (List.dropWhile_sublist _).mem h
  have h2 := List.mem_reverse.mp h1
  have h3 := (List.dropWhile_sublist _).mem h2
  exact List.mem_reverse.mp h3

/-- C7 counterexample: on input "Freehold", which contains no numeric token,
parse_land_title returns the empty string, not the whole trimmed string. -/
theorem parse_land_title_no_token_cex :
    parse_land_title ("Freehold") = ("") ∧ ("Freehold" : String) ≠ ("") ∧
    (("Freehold" : String).data.any isNumTokChar) = false := by
  decide

/-- C7 amended: for every newline-free input, parse_land_title returns the
stripped text preceding the first `[\d.,]` token character when the
stripped input contains one (note a bare "." or "," counts as a numeric
token), and the EMPTY string — not the whole trimmed string — when the
input contains no such character or is empty. -/
theorem parse_land_title_amended (s : String) (hnl : ¬ '\n' ∈ s.data) :
    parse_land_title s =
      if (pyStrip s.data).any isNumTokChar = true then
        String.mk (pyStrip ((pyStrip s.data).takeWhile (fun c => !isNumTokChar c)))
      else ("") := by
  by_cases he : s.data.isEmpty = true
  · have hd : s.data = [] := List.isEmpty_iff.mp he
    simp [parse_land_title, hd, pyStrip, stripRight]
  · by_cases ha : (pyStrip s.data).any isNumTokChar = true
    · have hnl' : ¬ '\n' ∈ pyStrip s.data := fun hm => hnl (mem_of_pyStrip hm)
      obtain ⟨g, hg, heq⟩ := ltSplit_strip hnl' ha
      rw [if_pos ha]
      simp only [parse_land_title, he, if_false, Bool.false_eq_true, hg]
      exact congrArg String.mk (congrArg (List.dropWhile isPySpace) heq).symm
    · have ha' : (pyStrip s.data).any isNumTokChar = false := by
        simpa using ha
      have hg := ltSplit_none_of_no_numtok ha'
      rw [if_neg ha]
      simp [parse_land_title, he, hg]

/-- Witness for the amended C7 on the spec's example input. -/
theorem parse_land_title_amended_witness :
    parse_land_title ("Freehold 450 m2") = ("Freehold") :=
  (parse_land_title_amended ("Freehold 450 m2") (by decide)).trans (by decide)
